import Mathlib

/-!
Verification of the genetics and valuation engine of the snake-breeding game.

The JavaScript sources `src/core/Snake.js` and `src/core/SeededRandom.js` are
embedded shallowly below: JS numbers are modelled as rationals (`ℚ`), JS
integers as `Int`/`Nat`, JS objects whose iteration order matters
(`Object.entries` / `Object.values`) as association lists in insertion order,
and code that can throw a `TypeError` as `Except Unit`-valued functions.
The breeding engine (`src/core/Genetics.js`) and the morph catalog
(`data/morphs.json`) are not part of the source tree; where a claim needs
them they are modelled from the repository's design documents, and each such
definition says so in its doc comment.
-/

/-! ## Seeded PRNG (src/core/SeededRandom.js) -/

/-- The MINSTD modulus used by `SeededRandom.next` (`m = 2147483647`). -/
def lcgM : Int := 2147483647

/-- The MINSTD multiplier used by `SeededRandom.next` (`a = 48271`). -/
def lcgA : Int := 48271

/-- State of `SeededRandom`: the original seed and the current LCG value.
JS numbers holding these values are integers throughout, so they are
modelled as `Int` (a JS seed may be negative). -/
structure SeededRandom where
  seed : Int
  current : Int
deriving DecidableEq, Repr

/-- JS `%` on integers is truncated remainder (sign of the dividend),
which is Lean's `Int.tmod`. -/
def jsMod (a b : Int) : Int := Int.tmod a b

/-- Embeds `SeededRandom.next()`: advance `current = (a * current) % m`
and return `current / m` (a JS float, modelled as `ℚ`). -/
def SeededRandom.next (r : SeededRandom) : ℚ × SeededRandom :=
  let c := jsMod (lcgA * r.current) lcgM
  ((c : ℚ) / (lcgM : ℚ), { r with current := c })

/-- Embeds `SeededRandom.float(min, max) = min + next() * (max - min)`. -/
def SeededRandom.float (r : SeededRandom) (mn mx : ℚ) : ℚ × SeededRandom :=
  let (u, r1) := r.next
  (mn + u * (mx - mn), r1)

/-- Embeds `SeededRandom.int(min, max) = Math.floor(float(min, max + 1))`. -/
def SeededRandom.int (r : SeededRandom) (mn mx : Int) : Int × SeededRandom :=
  let (f, r1) := r.float (mn : ℚ) ((mx : ℚ) + 1)
  (⌊f⌋, r1)

/-- Embeds `SeededRandom.bool(probability) = next() < probability`. -/
def SeededRandom.bool (r : SeededRandom) (p : ℚ) : Bool × SeededRandom :=
  let (u, r1) := r.next
  (decide (u < p), r1)

/-- JS array indexing `array[i]`: `undefined` (here `none`) when the index
is negative or past the end. -/
def jsIndex {α : Type} (l : List α) (i : Int) : Option α :=
  if 0 ≤ i then l.get? i.toNat else none

/-- Embeds `SeededRandom.pick(array) = array[this.int(0, array.length - 1)]`. -/
def SeededRandom.pick {α : Type} (r : SeededRandom) (l : List α) : Option α × SeededRandom :=
  let (i, r1) := r.int 0 ((l.length : Int) - 1)
  (jsIndex l i, r1)

/-! ## Gene catalog data model -/

/-- Inheritance modes recognised by `Snake.getPhenotype`'s `switch`. -/
inductive Inh where
  | recessive
  | incompleteDominant
  | dominant
  | polygenic
deriving DecidableEq, Repr

/-- A gene catalog entry (an entry of `morphData.genes`), with the fields
`Snake.js` reads: `name`, `inheritance`, `superForm`, `rarity`. -/
structure Gene where
  name : String
  inheritance : Inh
  superForm : Option String := none
  rarity : Nat := 1
deriving DecidableEq, Repr

/-- A combo-morph catalog entry (an entry of `morphData.comboMorphs`), with
the fields `Snake.js` reads: `name`, `requires`, `basePrice`. -/
structure Combo where
  name : String
  requires : List String
  basePrice : Option ℚ := none
deriving DecidableEq, Repr

/-- A species catalog entry, with the fields `Snake.js` and the breeding
engine read: `basePrice`, `commonName`, and the clutch-size range. -/
structure SpeciesDef where
  basePrice : ℚ
  commonName : String
  clutchMin : Int
  clutchMax : Int
deriving DecidableEq, Repr

/-- The pricing-rule table `morphData.pricingRules` as read by
`Snake.calculatePrice`. -/
structure PricingRules where
  genderMultiplier : List (String × ℚ)
  rarityMultipliers : List (Nat × ℚ)
  hetGeneBonus : ℚ
  provenBreederBonus : ℚ
  speciesMultipliers : List (String × ℚ)
deriving DecidableEq, Repr

/-- The full `morphData` object handed to every `Snake`. Association lists
keep JS object insertion order, which is the catalog order seen by
`Object.entries` / `Object.values`. -/
structure MorphData where
  genes : List (String × Gene)
  comboMorphs : List (String × Combo)
  species : List (String × SpeciesDef)
  pricingRules : PricingRules
deriving DecidableEq, Repr

/-- JS object property lookup `obj[key]` on an insertion-ordered object:
the value at the key, or `undefined` (`none`). -/
def jget {κ α : Type} [DecidableEq κ] (l : List (κ × α)) (k : κ) : Option α :=
  (l.find? (fun p => decide (p.1 = k))).map (fun p => p.2)

/-- JS `v || d` for a possibly-absent number `v`: the default is used when
`v` is `undefined` or `0` (both falsy). -/
def jsOr (v : Option ℚ) (d : ℚ) : ℚ :=
  match v with
  | none => d
  | some x => if x = 0 then d else x

/-- JS `Math.round`: half-integers round toward positive infinity. -/
def jsRound (q : ℚ) : Int := ⌊q + 1 / 2⌋

instance {ε α : Type} [DecidableEq ε] [DecidableEq α] : DecidableEq (Except ε α) := fun a b =>
  match a, b with
  | Except.ok x, Except.ok y =>
      if h : x = y then isTrue (by rw [h]) else isFalse (by intro hc; cases hc; exact h rfl)
  | Except.error x, Except.error y =>
      if h : x = y then isTrue (by rw [h]) else isFalse (by intro hc; cases hc; exact h rfl)
  | Except.ok _, Except.error _ => isFalse (by intro hc; cases hc)
  | Except.error _, Except.ok _ => isFalse (by intro hc; cases hc)

/-! ## Genotype model -/

/-- A value stored in a genotype object. `Snake.js` expects an array of
allele strings; `jnull` models a JS `null` (a non-array value, as can occur
in malformed save data), on which indexing or `.filter`/`.some` throws. -/
inductive JSVal where
  | arr (xs : List String)
  | jnull
deriving DecidableEq, Repr

/-- A genotype: `Object.entries(this.genotype)` in insertion order. -/
abbrev Genotype := List (String × JSVal)

/-- The wild-type marker `'+'`. -/
def wildPlus : String := "+"

/-- The wild-type marker `'wild'`. -/
def wildWord : String := "wild"

/-- The `alleles.filter(a => a !== '+' && a !== 'wild').length` count from
the incomplete-dominant branch of `Snake.getPhenotype`. -/
def nonWildCount (xs : List String) : Nat :=
  (xs.filter (fun a => !(a == wildPlus) && !(a == wildWord))).length

/-- The `alleles.some(a => a !== '+' && a !== 'wild')` test from the
dominant/polygenic branches of `Snake.getPhenotype`. -/
def anyNonWild (xs : List String) : Bool :=
  xs.any (fun a => !(a == wildPlus) && !(a == wildWord))

/-- JS truthiness of `gene.superForm` in `mutantCount === 2 && gene.superForm`:
the super form is pushed only when present and not the empty string. -/
def superPush (o : Option String) : Option String :=
  match o with
  | none => none
  | some s => if s = "" then none else some s

/-- One iteration of the `switch (gene.inheritance)` in `Snake.getPhenotype`,
for a gene found in the catalog: the trait it pushes (if any), or a thrown
`TypeError` when the allele value is not an array. -/
def resolveGene (geneId : String) (v : JSVal) (g : Gene) : Except Unit (Option String) :=
  match g.inheritance with
  | Inh.recessive =>
      match v with
      | JSVal.jnull => Except.error ()
      | JSVal.arr xs =>
          Except.ok (if xs.get? 0 = some geneId ∧ xs.get? 1 = some geneId then some geneId else none)
  | Inh.incompleteDominant =>
      match v with
      | JSVal.jnull => Except.error ()
      | JSVal.arr xs =>
          Except.ok (if nonWildCount xs = 1 then some geneId
            else if nonWildCount xs = 2 then superPush g.superForm else none)
  | Inh.dominant =>
      match v with
      | JSVal.jnull => Except.error ()
      | JSVal.arr xs => Except.ok (if anyNonWild xs then some geneId else none)
  | Inh.polygenic =>
      match v with
      | JSVal.jnull => Except.error ()
      | JSVal.arr xs => Except.ok (if anyNonWild xs then some geneId else none)

/-- The contribution of one genotype entry to the phenotype: a gene id not
found in the catalog is skipped (`if (!gene) continue`) before its allele
value is ever touched. -/
def entryContrib (genes : List (String × Gene)) (e : String × JSVal) : Except Unit (Option String) :=
  match jget genes e.1 with
  | none => Except.ok none
  | some g => resolveGene e.1 e.2 g

/-- A `for`-loop that visits a list of entries in order and pushes each
entry's optional contribution, aborting on the first thrown entry. This is
the common shape of the loops in `Snake.getPhenotype` and
`Snake.getHetGenes`. -/
def collectE {α : Type} (f : α → Except Unit (Option String)) : List α → Except Unit (List String)
  | [] => Except.ok []
  | e :: rest => do
      let r ← f e
      let tl ← collectE f rest
      pure (r.toList ++ tl)

/-- Embeds `Snake.getPhenotype`: iterate `Object.entries(this.genotype)` in
insertion order, pushing each entry's expressed trait. -/
def getPhenotype (gt : Genotype) (genes : List (String × Gene)) : Except Unit (List String) :=
  collectE (entryContrib genes) gt

/-- The het test for a single genotype entry in `Snake.getHetGenes`:
a recessive catalog gene with exactly one copy of its own id among the
alleles and not already in the phenotype is reported by display `name`. -/
def hetEntry (genes : List (String × Gene)) (ph : List String) (e : String × JSVal) :
    Except Unit (Option String) :=
  match jget genes e.1 with
  | none => Except.ok none
  | some g =>
      if g.inheritance = Inh.recessive then
        match e.2 with
        | JSVal.jnull => Except.error ()
        | JSVal.arr xs =>
            Except.ok (if xs.count e.1 = 1 ∧ ¬ e.1 ∈ ph then some g.name else none)
      else Except.ok none

/-- The loop of `Snake.getHetGenes`, once the phenotype is known. -/
def hetLoop (gt : Genotype) (genes : List (String × Gene)) (ph : List String) :
    Except Unit (List String) :=
  collectE (hetEntry genes ph) gt

/-- Embeds `Snake.getHetGenes` (which first computes the phenotype). -/
def getHetGenes (gt : Genotype) (genes : List (String × Gene)) : Except Unit (List String) := do
  let ph ← getPhenotype gt genes
  hetLoop gt genes ph

/-- Embeds `Snake.getVisualGenes`: map each expressed trait id to its
catalog display name, falling back to the raw id. -/
def visualNames (ph : List String) (genes : List (String × Gene)) : List String :=
  ph.map (fun gid => match jget genes gid with | some g => g.name | none => gid)

/-- The display name used for a trait-less snake. -/
def normalName : String := "Normal"

/-- JS `array.join(' ')`. -/
def spaceJoin (l : List String) : String := String.intercalate (" ") l

/-- The combo-match test `combo.requires.every(req => phenotype.includes(req))`. -/
def comboMatches (ph : List String) (c : Combo) : Bool :=
  c.requires.all (fun req => ph.contains req)

/-- Embeds `Snake.getDisplayName`: "Normal" for an empty phenotype, else the
first combo morph (catalog order) whose requirements are all expressed, else
the space-joined visual names. -/
def getDisplayName (gt : Genotype) (md : MorphData) : Except Unit String := do
  let ph ← getPhenotype gt md.genes
  let visuals := visualNames ph md.genes
  if visuals = [] then
    pure normalName
  else
    match md.comboMorphs.find? (fun p => comboMatches ph p.2) with
    | some p => pure p.2.name
    | none => pure (spaceJoin visuals)

/-! ## Valuation engine (Snake.calculatePrice) -/

/-- The mutable stats block of a snake, as far as pricing reads it. -/
structure Stats where
  clutchesProduced : Nat := 0
deriving DecidableEq, Repr

/-- The fields of a `Snake` that the purely computational queries read. -/
structure SnakeC where
  species : String
  sex : String
  genotype : Genotype
  stats : Stats := {}
deriving DecidableEq, Repr

/-- The starting price `species?.basePrice || 100` of `calculatePrice`. -/
def basePriceOf (md : MorphData) (sp : String) : ℚ :=
  jsOr ((jget md.species sp).map (fun s => s.basePrice)) 100

/-- One step of the visual-morph multiplier loop of `calculatePrice`:
`price *= rules.rarityMultipliers[gene.rarity] || 1.0` when the trait's
gene is in the catalog. -/
def rarityStep (md : MorphData) (p : ℚ) (gid : String) : ℚ :=
  match jget md.genes gid with
  | none => p
  | some g => p * jsOr (jget md.pricingRules.rarityMultipliers g.rarity) 1

/-- The combo-morph loop of `calculatePrice`: on the first combo (in catalog
order) whose requirements are all expressed, the running price becomes
`Math.max(price, combo.basePrice || price)` and the loop `break`s. -/
def comboAdjust : List Combo → List String → ℚ → ℚ
  | [], _, p => p
  | c :: rest, ph, p =>
      if comboMatches ph c then max p (jsOr c.basePrice p)
      else comboAdjust rest ph p

/-- The first two steps of `Snake.calculatePrice`: species base price times
sex multiplier (`rules.genderMultiplier[this.sex] || 1.0`). -/
def priceHead (md : MorphData) (s : SnakeC) : ℚ :=
  basePriceOf md s.species * jsOr (jget md.pricingRules.genderMultiplier s.sex) 1

/-- The steps of `Snake.calculatePrice` after the combo override: het-carrier
bonus, proven-breeder bonus, species multiplier. -/
def priceTail (md : MorphData) (s : SnakeC) (hets : List String) (p : ℚ) : ℚ :=
  let p4 := p * (1 + (hets.length : ℚ) * md.pricingRules.hetGeneBonus)
  let p5 := if s.stats.clutchesProduced > 0 then p4 * md.pricingRules.provenBreederBonus else p4
  p5 * jsOr (jget md.pricingRules.speciesMultipliers s.species) 1

/-- The arithmetic pipeline of `Snake.calculatePrice` once the phenotype and
het lists are known: base price, sex multiplier, per-trait rarity
multipliers, combo override, het bonus, proven-breeder bonus, species
multiplier. -/
def priceFrom (md : MorphData) (s : SnakeC) (ph hets : List String) : ℚ :=
  priceTail md s hets (comboAdjust (md.comboMorphs.map (fun p => p.2)) ph
    (ph.foldl (rarityStep md) (priceHead md s)))

/-- Embeds `Snake.calculatePrice`: resolve the phenotype and het list (either
may throw on malformed data), run the pricing pipeline, `Math.round` the
result. -/
def calculatePrice (s : SnakeC) (md : MorphData) : Except Unit Int := do
  let ph ← getPhenotype s.genotype md.genes
  let hets ← getHetGenes s.genotype md.genes
  pure (jsRound (priceFrom md s ph hets))

/-! ## Breeding engine -/

/-- Error message of the species-mismatch precondition. -/
def speciesMismatchMsg : String := "Cannot crossbreed different species"

/-- Error message when the parents' species is not in the species catalog. -/
def unknownSpeciesMsg : String := "Unknown species"

/-- Error message when a gene of parent 1 is absent from parent 2. -/
def misalignedMsg : String := "Parent gene sets not aligned"

/-- Error message when an allele draw comes back undefined. -/
def emptyAlleleMsg : String := "Empty allele pair"

/-- Sex value drawn for male offspring. -/
def maleStr : String := "male"

/-- Sex value drawn for female offspring. -/
def femaleStr : String := "female"

/-- Origin value of bred offspring. -/
def bredStr : String := "bred"

/-- A breeding-engine genotype: each gene maps to its allele list (the
specification's invariant is exactly two well-formed values). -/
abbrev BGenotype := List (String × List String)

/-- The fields of a parent or offspring creature that the breeding engine
touches. -/
structure BreedSnake where
  id : String := ""
  species : String
  sex : String := ""
  genotype : BGenotype := []
  origin : String := ""
  parentIds : List String := []
deriving DecidableEq, Repr

/-- Modelled from the spec: for every gene key present in parent 1's
genotype, draw one allele uniformly from parent 1's pair and one from
parent 2's pair for the same gene (`src/core/Genetics.js` is not in the
source tree; this follows §4.3 step 3 of the specification). A gene of
parent 1 missing from parent 2 is a failure, as is a draw from an empty
allele list. -/
def makeChildGeno : BGenotype → BGenotype → SeededRandom → (Except String BGenotype) × SeededRandom
  | [], _, r => (Except.ok [], r)
  | (gid, xs) :: rest, g2, r =>
      match jget g2 gid with
      | none => (Except.error misalignedMsg, r)
      | some ys =>
          let (a1, r1) := r.pick xs
          let (a2, r2) := r1.pick ys
          match a1, a2 with
          | some b1, some b2 =>
              (match makeChildGeno rest g2 r2 with
               | (Except.ok tl, r3) => (Except.ok ((gid, [b1, b2]) :: tl), r3)
               | (Except.error m, r3) => (Except.error m, r3))
          | _, _ => (Except.error emptyAlleleMsg, r2)

/-- Modelled from the spec: one offspring — a child genotype drawn from both
parents, sex by unbiased coin flip, origin `bred`, parent identifiers
recorded (specification §4.3 steps 3–5). -/
def makeChild (p1 p2 : BreedSnake) (r : SeededRandom) : (Except String BreedSnake) × SeededRandom :=
  match makeChildGeno p1.genotype p2.genotype r with
  | (Except.error m, r1) => (Except.error m, r1)
  | (Except.ok cg, r1) =>
      let (isF, r2) := r1.bool (1 / 2)
      (Except.ok { species := p1.species, sex := if isF then femaleStr else maleStr,
                   genotype := cg, origin := bredStr, parentIds := [p1.id, p2.id] }, r2)

/-- Modelled from the spec: the clutch loop of `breed` (`for i < clutchSize`). -/
def breedClutch : Nat → BreedSnake → BreedSnake → SeededRandom → (Except String (List BreedSnake)) × SeededRandom
  | 0, _, _, r => (Except.ok [], r)
  | n + 1, p1, p2, r =>
      match makeChild p1 p2 r with
      | (Except.error m, r1) => (Except.error m, r1)
      | (Except.ok c, r1) =>
          match breedClutch n p1 p2 r1 with
          | (Except.ok tl, r2) => (Except.ok (c :: tl), r2)
          | (Except.error m, r2) => (Except.error m, r2)

/-- Modelled from the spec: `breed(parent1, parent2, prng)`
(`src/core/Genetics.js` is not in the source tree; this follows §4.3 of the
specification and §2.2 of SPECIFICATIONS.md). The species precondition is
checked first, before any PRNG draw; then a clutch size is drawn uniformly
from the species' inclusive range with the PRNG's `int`, and that many
offspring are generated. -/
def breed (p1 p2 : BreedSnake) (speciesTab : List (String × SpeciesDef)) (r : SeededRandom) :
    (Except String (List BreedSnake)) × SeededRandom :=
  if p1.species ≠ p2.species then (Except.error speciesMismatchMsg, r)
  else
    match jget speciesTab p1.species with
    | none => (Except.error unknownSpeciesMsg, r)
    | some sp =>
        let (cs, r1) := r.int sp.clutchMin sp.clutchMax
        breedClutch cs.toNat p1 p2 r1

/-! ## Spec-modelled catalog

The catalog `data/morphs.json` consumed by `Snake.js` is not in the source
tree. The concrete catalog below is modelled from SPECIFICATIONS.md
§1.1–§1.3 (species, genes, super forms, combo morphs, with the runtime's
lowercase identifiers) and §4 (the pricing tables). It is used for concrete
witnesses and counterexamples; the general theorems quantify over
arbitrary catalogs. -/

/-- Gene id `albino`. -/
def albinoId : String := "albino"

/-- Gene id `axanthic`. -/
def axanthicId : String := "axanthic"

/-- Gene id `lavender`. -/
def lavenderId : String := "lavender"

/-- Gene id `caramel`. -/
def caramelId : String := "caramel"

/-- Gene id `sable`. -/
def sableId : String := "sable"

/-- Gene id `hypo`. -/
def hypoId : String := "hypo"

/-- Gene id `anaconda`. -/
def anacondaId : String := "anaconda"

/-- Gene id `arctic`. -/
def arcticId : String := "arctic"

/-- Gene id `lemon_ghost`. -/
def lemonGhostId : String := "lemon_ghost"

/-- Gene id `cinnamon`. -/
def cinnamonId : String := "cinnamon"

/-- Super-form trait id `superconda`. -/
def supercondaId : String := "superconda"

/-- Super-form trait id `superarctic`. -/
def superarcticId : String := "superarctic"

/-- Modelled from the spec: the `albino` catalog entry. -/
def albinoGene : Gene := { name := "Albino", inheritance := Inh.recessive, rarity := 1 }

/-- Modelled from the spec: the `axanthic` catalog entry. -/
def axanthicGene : Gene := { name := "Axanthic", inheritance := Inh.recessive, rarity := 2 }

/-- Modelled from the spec: the `lavender` catalog entry. -/
def lavenderGene : Gene := { name := "Lavender", inheritance := Inh.recessive, rarity := 3 }

/-- Modelled from the spec: the `caramel` catalog entry. -/
def caramelGene : Gene := { name := "Caramel", inheritance := Inh.recessive, rarity := 2 }

/-- Modelled from the spec: the `sable` catalog entry. -/
def sableGene : Gene := { name := "Sable", inheritance := Inh.recessive, rarity := 3 }

/-- Modelled from the spec: the `hypo` catalog entry. -/
def hypoGene : Gene := { name := "Hypo", inheritance := Inh.recessive, rarity := 1 }

/-- Modelled from the spec: the `anaconda` catalog entry (incomplete
dominant, super form `superconda`). -/
def anacondaGene : Gene :=
  { name := "Anaconda", inheritance := Inh.incompleteDominant,
    superForm := some supercondaId, rarity := 2 }

/-- Modelled from the spec: the `arctic` catalog entry (incomplete dominant,
super form `superarctic`). -/
def arcticGene : Gene :=
  { name := "Arctic", inheritance := Inh.incompleteDominant,
    superForm := some superarcticId, rarity := 3 }

/-- Modelled from the spec: the `lemon_ghost` catalog entry. -/
def lemonGhostGene : Gene := { name := "Lemon Ghost", inheritance := Inh.dominant, rarity := 2 }

/-- Modelled from the spec: the `cinnamon` catalog entry. -/
def cinnamonGene : Gene := { name := "Cinnamon", inheritance := Inh.dominant, rarity := 2 }

/-- Modelled from the spec: the gene catalog in catalog order. -/
def specGenes : List (String × Gene) :=
  [(albinoId, albinoGene), (axanthicId, axanthicGene), (lavenderId, lavenderGene),
   (caramelId, caramelGene), (sableId, sableGene), (hypoId, hypoGene),
   (anacondaId, anacondaGene), (arcticId, arcticGene),
   (lemonGhostId, lemonGhostGene), (cinnamonId, cinnamonGene)]

/-- Modelled from the spec: the combo-morph catalog in catalog order
(SPECIFICATIONS.md defines `priceMultiplier` for combos, not `basePrice`,
so `basePrice` is absent on every entry). -/
def specCombos : List (String × Combo) :=
  [("snow", { name := "Snow", requires := [albinoId, axanthicId] }),
   ("yeti", { name := "Yeti", requires := [albinoId, axanthicId, anacondaId] }),
   ("sunburst", { name := "Sunburst", requires := [sableId, albinoId] }),
   ("subzero", { name := "Subzero", requires := [albinoId, superarcticId] }),
   ("moondust", { name := "Moondust", requires := [superarcticId, lavenderId] }),
   ("swiss_chocolate", { name := "Swiss Chocolate", requires := ["special_ultra_rare"] })]

/-- Species id `western`. -/
def westernId : String := "western"

/-- Species id `eastern`. -/
def easternId : String := "eastern"

/-- Species id `southern`. -/
def southernId : String := "southern"

/-- Modelled from the spec: the western-hognose species entry. -/
def westernDef : SpeciesDef :=
  { basePrice := 100, commonName := "Western Hognose", clutchMin := 8, clutchMax := 25 }

/-- Modelled from the spec: the eastern-hognose species entry. -/
def easternDef : SpeciesDef :=
  { basePrice := 150, commonName := "Eastern Hognose", clutchMin := 10, clutchMax := 30 }

/-- Modelled from the spec: the southern-hognose species entry. -/
def southernDef : SpeciesDef :=
  { basePrice := 500, commonName := "Southern Hognose", clutchMin := 6, clutchMax := 14 }

/-- Modelled from the spec: the species catalog. -/
def specSpecies : List (String × SpeciesDef) :=
  [(westernId, westernDef), (easternId, easternDef), (southernId, southernDef)]

/-- Modelled from the spec: the pricing-rule tables (female +30%, rarity
tier multiplier `1 + rarity * 0.5`, het bonus 15%, proven breeder +20%,
southern conservation ×2). -/
def specRules : PricingRules :=
  { genderMultiplier := [(femaleStr, 13 / 10)],
    rarityMultipliers := [(1, 3 / 2), (2, 2), (3, 5 / 2), (4, 3), (5, 7 / 2)],
    hetGeneBonus := 3 / 20,
    provenBreederBonus := 6 / 5,
    speciesMultipliers := [(southernId, 2)] }

/-- Modelled from the spec: the full `morphData` catalog. -/
def mdSpec : MorphData :=
  { genes := specGenes, comboMorphs := specCombos, species := specSpecies,
    pricingRules := specRules }

/-! ## Derived entry values and concrete inputs -/

/-- The pure per-entry phenotype contribution when it does not throw
(`none` both for "nothing pushed" and for a thrown entry). -/
def entryVal (genes : List (String × Gene)) (e : String × JSVal) : Option String :=
  match entryContrib genes e with
  | Except.ok o => o
  | Except.error _ => none

/-- The pure per-entry het contribution when it does not throw. -/
def hetVal (genes : List (String × Gene)) (ph : List String) (e : String × JSVal) : Option String :=
  match hetEntry genes ph e with
  | Except.ok o => o
  | Except.error _ => none

/-- Whether an `Except` computation succeeded. -/
def isOkB {ε α : Type} : Except ε α → Bool
  | Except.ok _ => true
  | Except.error _ => false

/-- Whether a genotype value is a JS array. -/
def isArrB : JSVal → Bool
  | JSVal.arr _ => true
  | JSVal.jnull => false

/-- A genotype whose keys were inserted in the reverse of catalog order:
`axanthic` before `albino`, both homozygous mutant. -/
def cexGeno : Genotype :=
  [(axanthicId, JSVal.arr [axanthicId, axanthicId]), (albinoId, JSVal.arr [albinoId, albinoId])]

/-- A genotype homozygous for `albino`. -/
def gtAlbHomo : Genotype := [(albinoId, JSVal.arr [albinoId, albinoId])]

/-- A genotype heterozygous for `albino`. -/
def gtAlbHet : Genotype := [(albinoId, JSVal.arr [albinoId, wildWord])]

/-- A genotype homozygous for both `albino` and `axanthic`. -/
def gtSnow : Genotype :=
  [(albinoId, JSVal.arr [albinoId, albinoId]), (axanthicId, JSVal.arr [axanthicId, axanthicId])]

/-- A genotype with one well-formed entry and one unknown gene holding a
non-array value. -/
def gtMixed : Genotype :=
  [(albinoId, JSVal.arr [albinoId, wildWord]), ("mystery", JSVal.jnull)]

/-- A snake used in concrete pricing checks. -/
def snakeW : SnakeC := { species := westernId, sex := maleStr, genotype := gtAlbHet }

/-- A western parent for breeding checks. -/
def westernP : BreedSnake :=
  { id := "p1", species := westernId, genotype := [(albinoId, [albinoId, wildWord])] }

/-- A second western parent for breeding checks. -/
def westernQ : BreedSnake :=
  { id := "p2", species := westernId, genotype := [(albinoId, [wildWord, wildWord])] }

/-- An eastern parent for breeding checks. -/
def easternP : BreedSnake := { id := "p3", species := easternId }

/-- A PRNG stream at the default world seed. -/
def rngW : SeededRandom := { seed := 42069, current := 42069 }

/-- A combo morph with an explicit base price, for combo-override checks. -/
def snowPriced : Combo :=
  { name := "Snow", requires := [albinoId, axanthicId], basePrice := some 400 }

/-- The display name of the Snow combo. -/
def snowName : String := "Snow"

/-- The phenotype of a snake homozygous for albino and axanthic. -/
def snowPh : List String := [albinoId, axanthicId]

/-! ## Basic lemmas -/

lemma ok_bind {ε α β : Type} (a : α) (f : α → Except ε β) :
    (Except.ok a >>= f : Except ε β) = f a := rfl

lemma error_bind {ε α β : Type} (u : ε) (f : α → Except ε β) :
    (Except.error u >>= f : Except ε β) = Except.error u := rfl

lemma pure_ok {ε α : Type} (a : α) : (pure a : Except ε α) = Except.ok a := rfl

lemma jget_mem {κ α : Type} [DecidableEq κ] {l : List (κ × α)} {k : κ} {v : α}
    (h : jget l k = some v) : (k, v) ∈ l := by
  cases hf : l.find? (fun p => decide (p.1 = k)) with
  | none => simp [jget, hf] at h
  | some p =>
      have hmem := List.mem_of_find?_eq_some hf
      have hk : p.1 = k := by
        have h2 := List.find?_some hf
        simpa using h2
      have hv : p.2 = v := by simpa [jget, hf] using h
      obtain ⟨a, b⟩ := p
      cases hk
      cases hv
      exact hmem

/-- Success of `collectE` determines the output: the in-order list of the
entries' contributions. -/
lemma collectE_ok_eq {α : Type} {f : α → Except Unit (Option String)} {l : List α}
    {out : List String} (h : collectE f l = Except.ok out) :
    out = l.filterMap (fun e => match f e with | Except.ok o => o | Except.error _ => none) := by
  induction l generalizing out with
  | nil =>
      simp only [collectE] at h
      cases h
      simp
  | cons e rest ih =>
      rw [collectE] at h
      cases hc : f e with
      | error u => rw [hc, error_bind] at h; cases h
      | ok r =>
          rw [hc, ok_bind] at h
          cases hp : collectE f rest with
          | error u => rw [hp, error_bind] at h; cases h
          | ok tl =>
              rw [hp, ok_bind] at h
              cases h
              rw [List.filterMap_cons, hc]
              cases r with
              | none => simpa using ih hp
              | some x => simpa using ih hp

/-- Success of `collectE` on both halves gives success on the appended list. -/
lemma collectE_append_ok {α : Type} {f : α → Except Unit (Option String)} {a b : List α}
    {x y : List String} (ha : collectE f a = Except.ok x) (hb : collectE f b = Except.ok y) :
    collectE f (a ++ b) = Except.ok (x ++ y) := by
  induction a generalizing x with
  | nil =>
      simp only [collectE] at ha
      cases ha
      simpa using hb
  | cons e rest ih =>
      rw [collectE] at ha
      cases hc : f e with
      | error u => rw [hc, error_bind] at ha; cases ha
      | ok r =>
          rw [hc, ok_bind] at ha
          cases hp : collectE f rest with
          | error u => rw [hp, error_bind] at ha; cases ha
          | ok tl =>
              rw [hp, ok_bind] at ha
              cases ha
              have hr := ih hp
              rw [List.cons_append, collectE, hc, ok_bind, hr, ok_bind, pure_ok,
                List.append_assoc]

/-- If every entry's contribution succeeds, `collectE` succeeds. -/
lemma collectE_total {α : Type} {f : α → Except Unit (Option String)} {l : List α}
    (h : ∀ e ∈ l, ∃ o, f e = Except.ok o) : ∃ out, collectE f l = Except.ok out := by
  induction l with
  | nil => exact ⟨[], rfl⟩
  | cons e rest ih =>
      obtain ⟨o, ho⟩ := h e (List.mem_cons_self e rest)
      obtain ⟨out, hout⟩ := ih (fun x hx => h x (List.mem_cons_of_mem e hx))
      exact ⟨o.toList ++ out, by rw [collectE, ho, ok_bind, hout, ok_bind, pure_ok]⟩

/-- Entries with pointwise-equal contributions collect identically. -/
lemma collectE_congr {α : Type} {f g : α → Except Unit (Option String)} {l : List α}
    (h : ∀ e ∈ l, f e = g e) : collectE f l = collectE g l := by
  induction l with
  | nil => rfl
  | cons e rest ih =>
      rw [collectE, collectE, h e (List.mem_cons_self e rest),
        ih (fun x hx => h x (List.mem_cons_of_mem e hx))]

/-! ## PRNG bounds -/

/-- On a non-negative state, `next()` yields a value in `[0, 1)` and leaves a
non-negative state. -/
lemma next_spec (r : SeededRandom) (h : 0 ≤ r.current) :
    0 ≤ (r.next).1 ∧ (r.next).1 < 1 ∧ 0 ≤ (r.next).2.current := by
  have ha : 0 ≤ lcgA * r.current := mul_nonneg (by decide) h
  have h0 : 0 ≤ jsMod (lcgA * r.current) lcgM := Int.tmod_nonneg _ ha
  have h1 : jsMod (lcgA * r.current) lcgM < lcgM := by
    rw [jsMod, Int.tmod_eq_emod ha (by decide)]
    exact Int.emod_lt_of_pos _ (by decide)
  have hmQ : (0 : ℚ) < (lcgM : ℚ) := by norm_num [lcgM]
  refine ⟨?_, ?_, ?_⟩
  · show 0 ≤ ((jsMod (lcgA * r.current) lcgM : Int) : ℚ) / (lcgM : ℚ)
    exact div_nonneg (by exact_mod_cast h0) (le_of_lt hmQ)
  · show ((jsMod (lcgA * r.current) lcgM : Int) : ℚ) / (lcgM : ℚ) < 1
    rw [div_lt_one hmQ]
    exact_mod_cast h1
  · exact h0

/-- On a non-negative state, `int(min, max)` with `min ≤ max` lands in
`[min, max]` (both ends inclusive) and leaves a non-negative state. -/
lemma int_spec (r : SeededRandom) (mn mx : Int) (hmm : mn ≤ mx) (h : 0 ≤ r.current) :
    mn ≤ (r.int mn mx).1 ∧ (r.int mn mx).1 ≤ mx ∧ 0 ≤ (r.int mn mx).2.current := by
  obtain ⟨hu0, hu1, hc⟩ := next_spec r h
  have hmm2 : (mn : ℚ) ≤ (mx : ℚ) := by exact_mod_cast hmm
  have hd : (0 : ℚ) < (mx : ℚ) + 1 - mn := by linarith
  have hflow : (mn : ℚ) ≤ (mn : ℚ) + (r.next).1 * ((mx : ℚ) + 1 - mn) := by nlinarith
  have hfhigh : (mn : ℚ) + (r.next).1 * ((mx : ℚ) + 1 - mn) < (mx : ℚ) + 1 := by nlinarith
  have hval : (r.int mn mx).1 = ⌊(mn : ℚ) + (r.next).1 * ((mx : ℚ) + 1 - mn)⌋ := by
    simp [SeededRandom.int, SeededRandom.float]
  have hst : (r.int mn mx).2 = (r.next).2 := by
    simp [SeededRandom.int, SeededRandom.float]
  refine ⟨?_, ?_, ?_⟩
  · rw [hval]
    exact Int.le_floor.mpr hflow
  · rw [hval]
    have hlt : ⌊(mn : ℚ) + (r.next).1 * ((mx : ℚ) + 1 - mn)⌋ < mx + 1 := by
      apply Int.floor_lt.mpr
      push_cast
      linarith
    omega
  · rw [hst]
    exact hc

/-- On a non-negative state, `pick` of a non-empty array returns one of its
elements and leaves a non-negative state. -/
lemma pick_spec {α : Type} (r : SeededRandom) (l : List α) (hl : l ≠ []) (h : 0 ≤ r.current) :
    (∃ a ∈ l, (r.pick l).1 = some a) ∧ 0 ≤ (r.pick l).2.current := by
  have hlen : 1 ≤ (l.length : Int) := by
    have := List.length_pos.mpr hl
    omega
  obtain ⟨h1, h2, h3⟩ := int_spec r 0 ((l.length : Int) - 1) (by omega) h
  have hlt : (r.int 0 ((l.length : Int) - 1)).1.toNat < l.length := by omega
  have hval : (r.pick l).1 = jsIndex l (r.int 0 ((l.length : Int) - 1)).1 := by
    simp [SeededRandom.pick]
  have hst : (r.pick l).2 = (r.int 0 ((l.length : Int) - 1)).2 := by
    simp [SeededRandom.pick]
  refine ⟨⟨l.get ⟨_, hlt⟩, List.get_mem l _ hlt, ?_⟩, ?_⟩
  · rw [hval, jsIndex, if_pos h1]
    exact List.get?_eq_get hlt
  · rw [hst]
    exact h3

/-! ## Phenotype and het characterizations -/

/-- A successful `getPhenotype` returns exactly the in-order per-entry
contributions of the genotype (insertion order). -/
lemma getPhenotype_ok_eq {gt : Genotype} {genes : List (String × Gene)} {ph : List String}
    (h : getPhenotype gt genes = Except.ok ph) : ph = gt.filterMap (entryVal genes) :=
  collectE_ok_eq h

/-- A successful `hetLoop` returns exactly the in-order per-entry het
contributions. -/
lemma hetLoop_ok_eq {gt : Genotype} {genes : List (String × Gene)} {ph hets : List String}
    (h : hetLoop gt genes ph = Except.ok hets) : hets = gt.filterMap (hetVal genes ph) :=
  collectE_ok_eq h

/-! ## Claim C1 -/

/-- C1 (counterexample): `Snake.getPhenotype` iterates
`Object.entries(this.genotype)`, so for a genotype inserted as
`axanthic, albino` it returns `[axanthic, albino]`, while the catalog lists
`albino` before `axanthic`; the output is genotype-insertion-ordered, not
catalog-ordered. -/
theorem phenotype_not_catalog_ordered :
    getPhenotype cexGeno mdSpec.genes = Except.ok [axanthicId, albinoId] ∧
    (mdSpec.genes.map Prod.fst).filter
      (fun k => (([axanthicId, albinoId] : List String)).contains k) = [albinoId, axanthicId] ∧
    ([axanthicId, albinoId] : List String) ≠ [albinoId, axanthicId] :=
  ⟨by decide, by decide, by decide⟩

/-- C1 (amended): for every genotype on which `getPhenotype` succeeds, the
returned list of expressed trait identifiers is ordered by the genotype's
own key insertion order (the in-order per-entry contributions), not by the
catalog's gene order; this order is the one seen by all downstream
consumers. -/
theorem phenotype_follows_genotype_order (gt : Genotype) (genes : List (String × Gene))
    (ph : List String) (h : getPhenotype gt genes = Except.ok ph) :
    ph = gt.filterMap (entryVal genes) :=
  getPhenotype_ok_eq h

theorem phenotype_follows_genotype_order_witness :
    getPhenotype cexGeno mdSpec.genes = Except.ok [axanthicId, albinoId] ∧
    [axanthicId, albinoId] = cexGeno.filterMap (entryVal mdSpec.genes) :=
  ⟨by decide, phenotype_follows_genotype_order cexGeno mdSpec.genes _ (by decide)⟩

/-! ## Claim C5 -/

/-- C5: when the parents' species differ, `breed` fails with the
species-mismatch error, produces zero offspring, and returns the PRNG
stream unchanged — the check happens before any PRNG draw or allocation. -/
theorem breed_species_mismatch (p1 p2 : BreedSnake) (tab : List (String × SpeciesDef))
    (r : SeededRandom) (h : p1.species ≠ p2.species) :
    breed p1 p2 tab r = (Except.error speciesMismatchMsg, r) := by
  rw [breed, if_pos h]

theorem breed_species_mismatch_witness :
    westernP.species ≠ easternP.species ∧
    breed westernP easternP specSpecies rngW = (Except.error speciesMismatchMsg, rngW) :=
  ⟨by decide, breed_species_mismatch westernP easternP specSpecies rngW (by decide)⟩

/-! ## Claim C10 -/

/-- C10: for a non-empty array and a `SeededRandom` whose state is a
non-negative integer below the modulus, `pick` returns an element of the
array (the drawn index never reads out of bounds, because `next()` is
strictly below 1). -/
theorem pick_in_bounds {α : Type} (l : List α) (r : SeededRandom)
    (hl : l ≠ []) (h0 : 0 ≤ r.current) (hm : r.current < 2147483647) :
    ∃ a ∈ l, (r.pick l).1 = some a :=
  (pick_spec r l hl h0).1

theorem pick_in_bounds_witness :
    (([0, 1] : List Nat) ≠ [] ∧ 0 ≤ rngW.current ∧ rngW.current < 2147483647) ∧
    ∃ a ∈ ([0, 1] : List Nat), (rngW.pick [0, 1]).1 = some a :=
  ⟨⟨by decide, by decide, by decide⟩,
    pick_in_bounds [0, 1] rngW (by decide) (by decide) (by decide)⟩

/-! ## Claim C2 -/

/-- C2 (counterexample): a catalogued gene whose genotype value is a JS
`null` (a non-array value) makes `getPhenotype` throw a `TypeError`
(`null[0]`), so the computational queries are not total on malformed
genotypes. -/
theorem getPhenotype_throws_on_null_allele :
    getPhenotype [(albinoId, JSVal.jnull)] mdSpec.genes = Except.error () := by decide

lemma resolveGene_arr_ok (gid : String) (xs : List String) (g : Gene) :
    ∃ o, resolveGene gid (JSVal.arr xs) g = Except.ok o := by
  obtain ⟨n, inh, sf, ra⟩ := g
  cases inh <;> exact ⟨_, rfl⟩

lemma entryContrib_arr_ok (genes : List (String × Gene)) (e : String × JSVal)
    (hx : isArrB e.2 = true ∨ jget genes e.1 = none) :
    ∃ o, entryContrib genes e = Except.ok o := by
  obtain ⟨k, v⟩ := e
  cases hg : jget genes k with
  | none => exact ⟨none, by simp [entryContrib, hg]⟩
  | some g =>
      cases v with
      | arr xs =>
          obtain ⟨o, ho⟩ := resolveGene_arr_ok k xs g
          exact ⟨o, by simp [entryContrib, hg, ho]⟩
      | jnull => simp [isArrB, hg] at hx

lemma hetEntry_arr_ok (genes : List (String × Gene)) (ph : List String) (e : String × JSVal)
    (hx : isArrB e.2 = true ∨ jget genes e.1 = none) :
    ∃ o, hetEntry genes ph e = Except.ok o := by
  obtain ⟨k, v⟩ := e
  cases hg : jget genes k with
  | none => exact ⟨none, by simp [hetEntry, hg]⟩
  | some g =>
      by_cases hr : g.inheritance = Inh.recessive
      · cases v with
        | arr xs =>
            exact ⟨if xs.count k = 1 ∧ ¬ k ∈ ph then some g.name else none,
              by simp [hetEntry, hg, hr]⟩
        | jnull => simp [isArrB, hg] at hx
      · exact ⟨none, by simp [hetEntry, hg, hr]⟩

/-- C2 (amended): the purely computational queries `getPhenotype`,
`getHetGenes`, `getDisplayName` and `calculatePrice` never fail on a
genotype in which every catalogued gene's value is an array (of whatever
arity); a gene id not found in the catalog is silently skipped even when
its value is not an array. (A catalogued gene with a non-array value,
however, throws — see the counterexample.) -/
theorem queries_total_on_array_genotypes (s : SnakeC) (md : MorphData)
    (h : ∀ e ∈ s.genotype, isArrB e.2 = true ∨ jget md.genes e.1 = none) :
    isOkB (getPhenotype s.genotype md.genes) = true ∧
    isOkB (getHetGenes s.genotype md.genes) = true ∧
    isOkB (getDisplayName s.genotype md) = true ∧
    isOkB (calculatePrice s md) = true := by
  obtain ⟨ph, hph⟩ := collectE_total (fun e he => entryContrib_arr_ok md.genes e (h e he))
  have hph2 : getPhenotype s.genotype md.genes = Except.ok ph := hph
  obtain ⟨hets, hhl⟩ := collectE_total (fun e he => hetEntry_arr_ok md.genes ph e (h e he))
  have hhl2 : hetLoop s.genotype md.genes ph = Except.ok hets := hhl
  have hhet : getHetGenes s.genotype md.genes = Except.ok hets := by
    rw [getHetGenes, hph2, ok_bind]
    exact hhl2
  refine ⟨by rw [hph2]; rfl, by rw [hhet]; rfl, ?_, ?_⟩
  · rw [getDisplayName, hph2, ok_bind]
    by_cases hv : visualNames ph md.genes = []
    · simp only [hv, if_pos rfl]
      rfl
    · simp only [if_neg hv]
      cases md.comboMorphs.find? (fun p => comboMatches ph p.2) <;> rfl
  · rw [calculatePrice, hph2, ok_bind, hhet, ok_bind]
    rfl

theorem queries_total_on_array_genotypes_witness :
    (∀ e ∈ ({ species := westernId, sex := maleStr, genotype := gtMixed } : SnakeC).genotype,
      isArrB e.2 = true ∨ jget mdSpec.genes e.1 = none) ∧
    (isOkB (getPhenotype gtMixed mdSpec.genes) = true ∧
     isOkB (getHetGenes gtMixed mdSpec.genes) = true ∧
     isOkB (getDisplayName gtMixed mdSpec) = true ∧
     isOkB (calculatePrice { species := westernId, sex := maleStr, genotype := gtMixed } mdSpec) = true) :=
  ⟨by decide, queries_total_on_array_genotypes
    { species := westernId, sex := maleStr, genotype := gtMixed } mdSpec (by decide)⟩

/-! ## Claim C3 -/

/-- C3: for an incomplete-dominant catalog gene carrying a super form, a
genotype entry with exactly one non-wild allele contributes the gene's own
id to the phenotype; with exactly two non-wild alleles it contributes the
`superForm` id instead (the base gene id is not additionally listed by this
gene); with zero non-wild alleles it contributes nothing. The rest of the
phenotype is unaffected. -/
theorem incomplete_dominant_resolution
    (pre post : Genotype) (genes : List (String × Gene)) (gid sf : String)
    (xs : List String) (g : Gene) (php phs : List String)
    (hg : jget genes gid = some g) (hinh : g.inheritance = Inh.incompleteDominant)
    (hsf : g.superForm = some sf) (hne : sf ≠ "") (hlen : xs.length = 2)
    (hpre : getPhenotype pre genes = Except.ok php)
    (hpost : getPhenotype post genes = Except.ok phs) :
    getPhenotype (pre ++ (gid, JSVal.arr xs) :: post) genes =
      Except.ok (php ++ ((if nonWildCount xs = 1 then [gid]
        else if nonWildCount xs = 2 then [sf] else []) ++ phs)) := by
  have hentry : entryContrib genes (gid, JSVal.arr xs) =
      Except.ok (if nonWildCount xs = 1 then some gid
        else if nonWildCount xs = 2 then some sf else none) := by
    simp [entryContrib, hg, resolveGene, hinh, hsf, superPush, hne]
  have hmid : getPhenotype [(gid, JSVal.arr xs)] genes =
      Except.ok (if nonWildCount xs = 1 then [gid]
        else if nonWildCount xs = 2 then [sf] else []) := by
    show collectE (entryContrib genes) [(gid, JSVal.arr xs)] = _
    rw [collectE, hentry, ok_bind, collectE, ok_bind, pure_ok]
    split_ifs <;> simp
  show collectE (entryContrib genes) (pre ++ (gid, JSVal.arr xs) :: post) = _
  have hfin := collectE_append_ok hpre (collectE_append_ok hmid hpost)
  simpa using hfin

theorem incomplete_dominant_resolution_witness :
    getPhenotype [(anacondaId, JSVal.arr [anacondaId, anacondaId])] mdSpec.genes =
      Except.ok [supercondaId] ∧
    getPhenotype [(anacondaId, JSVal.arr [anacondaId, wildWord])] mdSpec.genes =
      Except.ok [anacondaId] := by
  constructor
  · have h := incomplete_dominant_resolution [] [] mdSpec.genes anacondaId supercondaId
      [anacondaId, anacondaId] anacondaGene [] [] (by decide) (by decide) (by decide)
      (by decide) (by decide) (by decide) (by decide)
    have hc : nonWildCount [anacondaId, anacondaId] = 2 := by decide
    simpa [hc] using h
  · have h := incomplete_dominant_resolution [] [] mdSpec.genes anacondaId supercondaId
      [anacondaId, wildWord] anacondaGene [] [] (by decide) (by decide) (by decide)
      (by decide) (by decide) (by decide) (by decide)
    have hc : nonWildCount [anacondaId, wildWord] = 1 := by decide
    simpa [hc] using h

/-! ## Claim C4 -/

lemma nodup_key_val_eq {α : Type} {l : List (String × α)} (hnd : (l.map Prod.fst).Nodup)
    {k : String} {v1 v2 : α} (h1 : (k, v1) ∈ l) (h2 : (k, v2) ∈ l) : v1 = v2 := by
  induction l with
  | nil => cases h1
  | cons p rest ih =>
      have hnd2 : (rest.map Prod.fst).Nodup := (List.nodup_cons.mp (by simpa using hnd)).2
      have hhead : p.1 ∉ rest.map Prod.fst := (List.nodup_cons.mp (by simpa using hnd)).1
      rcases List.mem_cons.mp h1 with he1 | ht1 <;> rcases List.mem_cons.mp h2 with he2 | ht2
      · exact congrArg Prod.snd (he1.trans he2.symm)
      · exfalso
        apply hhead
        have hk : k ∈ rest.map Prod.fst := List.mem_map_of_mem Prod.fst ht2
        rw [← he1]
        exact hk
      · exfalso
        apply hhead
        have hk : k ∈ rest.map Prod.fst := List.mem_map_of_mem Prod.fst ht1
        rw [← he2]
        exact hk
      · exact ih hnd2 ht1 ht2

lemma entryVal_eq_some {genes : List (String × Gene)} {e : String × JSVal} {x : String}
    (h : entryVal genes e = some x) :
    x = e.1 ∨ ∃ g, jget genes e.1 = some g ∧ g.superForm = some x := by
  obtain ⟨k, v⟩ := e
  cases hg : jget genes k with
  | none => simp [entryVal, entryContrib, hg] at h
  | some g =>
      obtain ⟨n, inh, sf, ra⟩ := g
      cases v with
      | jnull => cases inh <;> simp [entryVal, entryContrib, hg, resolveGene] at h
      | arr xs =>
          cases inh with
          | recessive =>
              simp only [entryVal, entryContrib, hg, resolveGene] at h
              by_cases hc : xs.get? 0 = some k ∧ xs.get? 1 = some k
              · rw [if_pos hc] at h
                simp at h
                exact Or.inl h.symm
              · rw [if_neg hc] at h
                simp at h
          | incompleteDominant =>
              simp only [entryVal, entryContrib, hg, resolveGene] at h
              by_cases h1 : nonWildCount xs = 1
              · rw [if_pos h1] at h
                simp at h
                exact Or.inl h.symm
              · rw [if_neg h1] at h
                by_cases h2 : nonWildCount xs = 2
                · rw [if_pos h2] at h
                  cases sf with
                  | none => simp [superPush] at h
                  | some s =>
                      simp only [superPush] at h
                      by_cases hs : s = ""
                      · rw [if_pos hs] at h
                        simp at h
                      · rw [if_neg hs] at h
                        simp at h
                        exact Or.inr ⟨⟨n, Inh.incompleteDominant, some s, ra⟩, rfl, by simp [h]⟩
                · rw [if_neg h2] at h
                  simp at h
          | dominant =>
              simp only [entryVal, entryContrib, hg, resolveGene] at h
              by_cases hc : anyNonWild xs = true
              · rw [if_pos hc] at h
                simp at h
                exact Or.inl h.symm
              · rw [if_neg hc] at h
                simp at h
          | polygenic =>
              simp only [entryVal, entryContrib, hg, resolveGene] at h
              by_cases hc : anyNonWild xs = true
              · rw [if_pos hc] at h
                simp at h
                exact Or.inl h.symm
              · rw [if_neg hc] at h
                simp at h

/-- C4: a recessive catalog gene is expressed exactly when both allele slots
equal its own mutant marker; with exactly one copy it is instead reported by
`getHetGenes` (by display name) and is absent from the phenotype. The
catalog hypothesis rules out another gene whose `superForm` shadows this
gene's id (true of the shipped catalog). -/
theorem recessive_expression_and_het
    (gt : Genotype) (genes : List (String × Gene)) (gid : String) (g : Gene)
    (xs : List String) (ph : List String)
    (hnd : (gt.map Prod.fst).Nodup)
    (hmem : (gid, JSVal.arr xs) ∈ gt)
    (hg : jget genes gid = some g)
    (hrec : g.inheritance = Inh.recessive)
    (hlen : xs.length = 2)
    (hsf : ∀ p ∈ genes, p.2.superForm ≠ some gid)
    (hph : getPhenotype gt genes = Except.ok ph) :
    (gid ∈ ph ↔ xs = [gid, gid]) ∧
    (xs.count gid = 1 → gid ∉ ph ∧
      ∀ hets, getHetGenes gt genes = Except.ok hets → g.name ∈ hets) := by
  have hPH := getPhenotype_ok_eq hph
  obtain ⟨a, b, hab⟩ : ∃ a b, xs = [a, b] := by
    cases xs with
    | nil => simp at hlen
    | cons a t =>
        cases t with
        | nil => simp at hlen
        | cons b t2 =>
            cases t2 with
            | nil => exact ⟨a, b, rfl⟩
            | cons c t3 => simp at hlen
  have hev : entryVal genes (gid, JSVal.arr xs) =
      (if xs.get? 0 = some gid ∧ xs.get? 1 = some gid then some gid else none) := by
    simp [entryVal, entryContrib, hg, resolveGene, hrec]
  have hiff : gid ∈ ph ↔ xs = [gid, gid] := by
    constructor
    · intro hin
      rw [hPH] at hin
      obtain ⟨e, hemem, heval⟩ := List.mem_filterMap.mp hin
      rcases entryVal_eq_some heval with hx | ⟨g2, hg2, hsf2⟩
      · obtain ⟨k, v⟩ := e
        simp only at hx
        cases hx
        have hveq : v = JSVal.arr xs := nodup_key_val_eq hnd hemem hmem
        cases hveq
        rw [hev] at heval
        by_cases hc : xs.get? 0 = some gid ∧ xs.get? 1 = some gid
        · rw [hab] at hc ⊢
          simp at hc
          rw [hc.1, hc.2]
        · rw [if_neg hc] at heval
          simp at heval
      · exact absurd hsf2 (hsf _ (jget_mem hg2))
    · intro hxs
      rw [hPH]
      refine List.mem_filterMap.mpr ⟨(gid, JSVal.arr xs), hmem, ?_⟩
      rw [hev, hxs]
      simp
  refine ⟨hiff, fun hcount => ?_⟩
  have hne2 : xs ≠ [gid, gid] := by
    intro hE
    rw [hE] at hcount
    simp [List.count_cons] at hcount
  have hnotin : gid ∉ ph := fun hin => hne2 (hiff.mp hin)
  refine ⟨hnotin, fun hets hhets => ?_⟩
  rw [getHetGenes, hph, ok_bind] at hhets
  have hH := hetLoop_ok_eq hhets
  have hv : hetVal genes ph (gid, JSVal.arr xs) = some g.name := by
    simp [hetVal, hetEntry, hg, hrec, hcount, hnotin]
  rw [hH]
  exact List.mem_filterMap.mpr ⟨(gid, JSVal.arr xs), hmem, hv⟩

theorem recessive_expression_and_het_witness :
    (getPhenotype gtAlbHomo mdSpec.genes = Except.ok [albinoId] ∧
      ((albinoId ∈ ([albinoId] : List String)) ↔
        ([albinoId, albinoId] : List String) = [albinoId, albinoId])) ∧
    (getPhenotype gtAlbHet mdSpec.genes = Except.ok [] ∧
      (albinoId ∉ ([] : List String) ∧
        ∀ hets, getHetGenes gtAlbHet mdSpec.genes = Except.ok hets →
          albinoGene.name ∈ hets)) := by
  constructor
  · refine ⟨by decide, ?_⟩
    exact (recessive_expression_and_het gtAlbHomo mdSpec.genes albinoId albinoGene
      [albinoId, albinoId] [albinoId] (by decide) (by decide) (by decide) (by decide)
      (by decide) (by decide) (by decide)).1
  · refine ⟨by decide, ?_⟩
    exact (recessive_expression_and_het gtAlbHet mdSpec.genes albinoId albinoGene
      [albinoId, wildWord] [] (by decide) (by decide) (by decide) (by decide)
      (by decide) (by decide) (by decide)).2 (by decide)

/-! ## Claim C7 -/

/-- The combo-override loop never decreases the running price. -/
lemma comboAdjust_ge (cs : List Combo) (ph : List String) (q : ℚ) :
    q ≤ comboAdjust cs ph q := by
  induction cs with
  | nil => simp [comboAdjust]
  | cons c rest ih =>
      rw [comboAdjust]
      by_cases hc : comboMatches ph c = true
      · rw [if_pos hc]
        exact le_max_left _ _
      · rw [if_neg hc]
        exact ih

/-- C7: in `calculatePrice`'s combo loop, the first combo (in catalog order)
whose requirement set is satisfied replaces the running price with
`max(price, basePrice)` and scanning stops — later combos never affect the
result — and the combo step never decreases the running price. -/
theorem combo_override_first_match (pre post : List Combo) (c : Combo) (ph : List String)
    (p b : ℚ)
    (hpre : ∀ c2 ∈ pre, comboMatches ph c2 = false)
    (hc : comboMatches ph c = true)
    (hb : c.basePrice = some b) (hb0 : b ≠ 0) :
    (∀ post2 : List Combo, comboAdjust (pre ++ c :: post2) ph p = max p b) ∧
    p ≤ comboAdjust (pre ++ c :: post) ph p ∧
    (∀ (cs : List Combo) (ph2 : List String) (q : ℚ), q ≤ comboAdjust cs ph2 q) := by
  have hfirst : ∀ pre2 : List Combo, (∀ c2 ∈ pre2, comboMatches ph c2 = false) →
      ∀ post2, comboAdjust (pre2 ++ c :: post2) ph p = max p b := by
    intro pre2
    induction pre2 with
    | nil =>
        intro _ post2
        rw [List.nil_append, comboAdjust, if_pos hc, hb]
        simp [jsOr, hb0]
    | cons d rest ih =>
        intro hpre2 post2
        rw [List.cons_append, comboAdjust,
          if_neg (by simp [hpre2 d (List.mem_cons_self d rest)])]
        exact ih (fun x hx => hpre2 x (List.mem_cons_of_mem d hx)) post2
  refine ⟨hfirst pre hpre, ?_, fun cs ph2 q => comboAdjust_ge cs ph2 q⟩
  rw [hfirst pre hpre post]
  exact le_max_left p b

theorem combo_override_first_match_witness :
    ((∀ c2 ∈ ([] : List Combo), comboMatches snowPh c2 = false) ∧
      comboMatches snowPh snowPriced = true ∧ snowPriced.basePrice = some 400) ∧
    (∀ post2 : List Combo,
      comboAdjust ([] ++ snowPriced :: post2) snowPh 100 = max 100 400) ∧
    (100 : ℚ) ≤ comboAdjust ([] ++ snowPriced :: []) snowPh 100 ∧
    (∀ (cs : List Combo) (ph2 : List String) (q : ℚ), q ≤ comboAdjust cs ph2 q) :=
  ⟨⟨fun _ hx => absurd hx (List.not_mem_nil _), by decide, rfl⟩,
    combo_override_first_match [] [] snowPriced snowPh 100 400
      (fun _ hx => absurd hx (List.not_mem_nil _)) (by decide) rfl (by norm_num)⟩

/-! ## Claim C9 -/

/-- C9: `getDisplayName` returns "Normal" exactly when the phenotype is
empty; on a non-empty phenotype it returns the name of the first combo morph
(in catalog order) whose full requirement set is contained in the phenotype,
and the space-joined visual trait names when no combo matches. The two
catalog hypotheses say that no combo morph and no visual-name join spells
"Normal" (true of the shipped catalog). -/
theorem display_name_resolution (gt : Genotype) (md : MorphData) (ph : List String)
    (hph : getPhenotype gt md.genes = Except.ok ph)
    (hnn : ∀ q ∈ md.comboMorphs, q.2.name ≠ normalName)
    (hjn : ph ≠ [] → spaceJoin (visualNames ph md.genes) ≠ normalName) :
    (getDisplayName gt md = Except.ok normalName ↔ ph = []) ∧
    (∀ q, ph ≠ [] → md.comboMorphs.find? (fun c => comboMatches ph c.2) = some q →
      getDisplayName gt md = Except.ok q.2.name) ∧
    (ph ≠ [] → md.comboMorphs.find? (fun c => comboMatches ph c.2) = none →
      getDisplayName gt md = Except.ok (spaceJoin (visualNames ph md.genes))) := by
  have hun : getDisplayName gt md =
      (if visualNames ph md.genes = [] then Except.ok normalName
       else match md.comboMorphs.find? (fun c => comboMatches ph c.2) with
            | some q => Except.ok q.2.name
            | none => Except.ok (spaceJoin (visualNames ph md.genes))) := by
    rw [getDisplayName, hph, ok_bind]
    rfl
  have hvempty : visualNames ph md.genes = [] ↔ ph = [] := by
    simp [visualNames]
  refine ⟨⟨?_, ?_⟩, ?_, ?_⟩
  · intro hN
    by_contra hne
    rw [hun, if_neg (fun hv => hne (hvempty.mp hv))] at hN
    cases hf : md.comboMorphs.find? (fun c => comboMatches ph c.2) with
    | some q =>
        rw [hf] at hN
        simp only [Except.ok.injEq] at hN
        exact hnn q (List.mem_of_find?_eq_some hf) hN
    | none =>
        rw [hf] at hN
        simp only [Except.ok.injEq] at hN
        exact hjn hne hN
  · intro hE
    rw [hun, if_pos (hvempty.mpr hE)]
  · intro q hne hf
    rw [hun, if_neg (fun hv => hne (hvempty.mp hv)), hf]
  · intro hne hf
    rw [hun, if_neg (fun hv => hne (hvempty.mp hv)), hf]

theorem display_name_resolution_witness :
    getPhenotype gtSnow mdSpec.genes = Except.ok snowPh ∧
    getDisplayName gtSnow mdSpec = Except.ok snowName := by
  refine ⟨by decide, ?_⟩
  have h := display_name_resolution gtSnow mdSpec snowPh (by decide) (by decide)
    (fun _ => by decide)
  have hf : mdSpec.comboMorphs.find? (fun c => comboMatches snowPh c.2) =
      some ("snow", { name := snowName, requires := [albinoId, axanthicId] }) := by decide
  have hres := h.2.1 _ (by decide) hf
  simpa using hres

/-! ## Claim C6 -/

/-- The coin flip keeps the PRNG state non-negative. -/
lemma bool_state (r : SeededRandom) (q : ℚ) (h : 0 ≤ r.current) :
    0 ≤ (r.bool q).2.current := by
  have := (next_spec r h).2.2
  simpa [SeededRandom.bool] using this

/-- With aligned non-empty allele lists, a child genotype draw succeeds and
keeps the PRNG state non-negative. -/
lemma makeChildGeno_ok (g1 g2 : BGenotype) (r : SeededRandom)
    (hr : 0 ≤ r.current)
    (halign : ∀ e ∈ g1, e.2 ≠ [] ∧ jget g2 e.1 ≠ none ∧ jget g2 e.1 ≠ some []) :
    ∃ cg r2, makeChildGeno g1 g2 r = (Except.ok cg, r2) ∧ 0 ≤ r2.current := by
  induction g1 generalizing r with
  | nil => exact ⟨[], r, rfl, hr⟩
  | cons e rest ih =>
      obtain ⟨k, xs⟩ := e
      obtain ⟨hxs, hg2a, hg2b⟩ := halign (k, xs) (List.mem_cons_self _ _)
      cases hys : jget g2 k with
      | none => exact absurd hys hg2a
      | some ys =>
          have hysne : ys ≠ [] := fun hE => hg2b (by rw [hys, hE])
          cases hp1 : r.pick xs with
          | mk o1 r1 =>
              have hs1 := pick_spec r xs hxs hr
              rw [hp1] at hs1
              obtain ⟨⟨a1, _, ha1⟩, hr1c⟩ := hs1
              cases hp2 : r1.pick ys with
              | mk o2 r2 =>
                  have hs2 := pick_spec r1 ys hysne hr1c
                  rw [hp2] at hs2
                  obtain ⟨⟨a2, _, ha2⟩, hr2c⟩ := hs2
                  obtain ⟨tl, r3, htl, hr3⟩ :=
                    ih r2 hr2c (fun x hx => halign x (List.mem_cons_of_mem _ hx))
                  refine ⟨(k, [a1, a2]) :: tl, r3, ?_, hr3⟩
                  simp only at ha1 ha2
                  simp only [makeChildGeno, hys, hp1, hp2, ha1, ha2, htl]

/-- With aligned non-empty allele lists, one offspring draw succeeds and
keeps the PRNG state non-negative. -/
lemma makeChild_ok (p1 p2 : BreedSnake) (r : SeededRandom)
    (hr : 0 ≤ r.current)
    (halign : ∀ e ∈ p1.genotype, e.2 ≠ [] ∧ jget p2.genotype e.1 ≠ none ∧
      jget p2.genotype e.1 ≠ some []) :
    ∃ c r2, makeChild p1 p2 r = (Except.ok c, r2) ∧ 0 ≤ r2.current := by
  obtain ⟨cg, r1, hcg, hr1⟩ := makeChildGeno_ok p1.genotype p2.genotype r hr halign
  cases hb : r1.bool (1 / 2) with
  | mk isF r2 =>
      have hr2 : 0 ≤ r2.current := by
        have := bool_state r1 (1 / 2) hr1
        rw [hb] at this
        exact this
      refine ⟨{ species := p1.species, sex := (if isF then femaleStr else maleStr),
                genotype := cg, origin := bredStr, parentIds := [p1.id, p2.id] },
        r2, ?_, hr2⟩
      simp only [makeChild, hcg, hb]

/-- With aligned non-empty allele lists, the clutch loop produces exactly
`n` offspring and keeps the PRNG state non-negative. -/
lemma breedClutch_ok (n : Nat) (p1 p2 : BreedSnake) (r : SeededRandom)
    (hr : 0 ≤ r.current)
    (halign : ∀ e ∈ p1.genotype, e.2 ≠ [] ∧ jget p2.genotype e.1 ≠ none ∧
      jget p2.genotype e.1 ≠ some []) :
    ∃ l r2, breedClutch n p1 p2 r = (Except.ok l, r2) ∧ l.length = n ∧ 0 ≤ r2.current := by
  induction n generalizing r with
  | zero => exact ⟨[], r, rfl, rfl, hr⟩
  | succ m ih =>
      obtain ⟨c, r1, hc, hr1⟩ := makeChild_ok p1 p2 r hr halign
      obtain ⟨l, r2, hl, hlen, hr2⟩ := ih r1 hr1
      refine ⟨c :: l, r2, ?_, by simp [hlen], hr2⟩
      simp only [breedClutch, hc, hl]

/-- C6: for same-species parents (with aligned, non-empty allele lists) and
any non-negative PRNG state, `breed` succeeds and the clutch length lies in
the species' inclusive `[clutchMin, clutchMax]` range, because the PRNG's
`int(min, max)` (implemented as `floor(float(min, max + 1))` with `next()`
strictly below 1) always lands in `[min, max]`. -/
theorem breed_clutch_size_bounds (p1 p2 : BreedSnake) (tab : List (String × SpeciesDef))
    (sp : SpeciesDef) (r : SeededRandom)
    (hsp : p1.species = p2.species)
    (hfound : jget tab p1.species = some sp)
    (hmin : 0 ≤ sp.clutchMin) (hmm : sp.clutchMin ≤ sp.clutchMax)
    (hr : 0 ≤ r.current)
    (halign : ∀ e ∈ p1.genotype, e.2 ≠ [] ∧ jget p2.genotype e.1 ≠ none ∧
      jget p2.genotype e.1 ≠ some []) :
    ∃ l r2, breed p1 p2 tab r = (Except.ok l, r2) ∧
      sp.clutchMin ≤ (l.length : Int) ∧ (l.length : Int) ≤ sp.clutchMax := by
  obtain ⟨hlo, hhi, hst⟩ := int_spec r sp.clutchMin sp.clutchMax hmm hr
  cases hint : r.int sp.clutchMin sp.clutchMax with
  | mk cs r1 =>
      rw [hint] at hlo hhi hst
      simp only at hlo hhi hst
      obtain ⟨l, r2, hcl, hlen, _⟩ := breedClutch_ok cs.toNat p1 p2 r1 hst halign
      refine ⟨l, r2, ?_, ?_, ?_⟩
      · have hne : ¬ p1.species ≠ p2.species := by simp [hsp]
        rw [breed, if_neg hne, hfound]
        simp only [hint, hcl]
      · rw [hlen]
        omega
      · rw [hlen]
        omega

theorem breed_clutch_size_bounds_witness :
    (westernP.species = westernQ.species ∧ jget specSpecies westernP.species = some westernDef ∧
      (0 : Int) ≤ westernDef.clutchMin ∧ westernDef.clutchMin ≤ westernDef.clutchMax ∧
      0 ≤ rngW.current) ∧
    ∃ l r2, breed westernP westernQ specSpecies rngW = (Except.ok l, r2) ∧
      westernDef.clutchMin ≤ (l.length : Int) ∧ (l.length : Int) ≤ westernDef.clutchMax :=
  ⟨⟨by decide, by rfl, by decide, by decide, by decide⟩,
    breed_clutch_size_bounds westernP westernQ specSpecies westernDef rngW (by decide)
      (by rfl) (by decide) (by decide) (by decide) (by decide)⟩

/-! ## Claim C8 -/

lemma jsOr_table_ge_one {table : List (Nat × ℚ)} (ht : ∀ q ∈ table, 1 ≤ q.2) (k : Nat) :
    1 ≤ jsOr (jget table k) 1 := by
  cases hj : jget table k with
  | none => simp [jsOr]
  | some x =>
      have hx : 1 ≤ x := ht _ (jget_mem hj)
      have hx0 : x ≠ 0 := by intro hE; rw [hE] at hx; norm_num at hx
      simpa [jsOr, hx0] using hx

lemma jsOr_nonneg {v : Option ℚ} {d : ℚ} (hv : ∀ x, v = some x → 0 ≤ x) (hd : 0 ≤ d) :
    0 ≤ jsOr v d := by
  cases v with
  | none => simpa [jsOr]
  | some x =>
      by_cases hx : x = 0
      · simp [jsOr, hx, hd]
      · simpa [jsOr, hx] using hv x rfl

lemma rarityStep_ge (md : MorphData)
    (hrar : ∀ q ∈ md.pricingRules.rarityMultipliers, 1 ≤ q.2)
    (p : ℚ) (hp : 0 ≤ p) (gid : String) : p ≤ rarityStep md p gid := by
  cases hg : jget md.genes gid with
  | none => simp [rarityStep, hg]
  | some g =>
      have h1 : 1 ≤ jsOr (jget md.pricingRules.rarityMultipliers g.rarity) 1 :=
        jsOr_table_ge_one hrar _
      simp only [rarityStep, hg]
      exact le_mul_of_one_le_right hp h1

lemma foldl_rarity_nonneg (md : MorphData)
    (hrar : ∀ q ∈ md.pricingRules.rarityMultipliers, 1 ≤ q.2)
    (l : List String) (p : ℚ) (hp : 0 ≤ p) : 0 ≤ l.foldl (rarityStep md) p := by
  induction l generalizing p with
  | nil => simpa
  | cons t rest ih => exact ih _ (le_trans hp (rarityStep_ge md hrar p hp t))

lemma comboAdjust_id {cs : List Combo} (hc : ∀ c ∈ cs, c.basePrice = none)
    (ph : List String) (p : ℚ) : comboAdjust cs ph p = p := by
  induction cs with
  | nil => rfl
  | cons c rest ih =>
      rw [comboAdjust]
      by_cases hm : comboMatches ph c = true
      · rw [if_pos hm, hc c (List.mem_cons_self _ _)]
        simp [jsOr]
      · rw [if_neg hm]
        exact ih (fun x hx => hc x (List.mem_cons_of_mem _ hx))

lemma jsRound_mono {a b : ℚ} (h : a ≤ b) : jsRound a ≤ jsRound b :=
  Int.floor_le_floor (by linarith)

/-- Extending the phenotype by a trait that is not an existing genotype key
does not change an old entry's het contribution. -/
lemma hetEntry_snoc_ph (genes : List (String × Gene)) (ph : List String) (t : String)
    (e : String × JSVal) (hk : e.1 ≠ t) :
    hetEntry genes (ph ++ [t]) e = hetEntry genes ph e := by
  obtain ⟨k, v⟩ := e
  simp only at hk
  cases hg : jget genes k with
  | none => simp [hetEntry, hg]
  | some g =>
      by_cases hr : g.inheritance = Inh.recessive
      · cases v with
        | jnull => simp [hetEntry, hg, hr]
        | arr xs => simp [hetEntry, hg, hr, List.mem_append, hk]
      · simp [hetEntry, hg, hr]

lemma priceTail_le (md : MorphData) (s : SnakeC) (hets extra : List String) (p p2 : ℚ)
    (hp : 0 ≤ p) (hpp : p ≤ p2)
    (hhet : 0 ≤ md.pricingRules.hetGeneBonus)
    (hbreed : 0 ≤ md.pricingRules.provenBreederBonus)
    (hsmul : ∀ q ∈ md.pricingRules.speciesMultipliers, 0 ≤ q.2) :
    priceTail md s hets p ≤ priceTail md s (hets ++ extra) p2 := by
  have hf1 : (0 : ℚ) ≤ 1 + (hets.length : ℚ) * md.pricingRules.hetGeneBonus := by positivity
  have hlen : (hets.length : ℚ) ≤ ((hets ++ extra).length : ℚ) := by
    push_cast [List.length_append]
    linarith [Nat.cast_nonneg (α := ℚ) extra.length]
  have hf2 : 1 + (hets.length : ℚ) * md.pricingRules.hetGeneBonus ≤
      1 + ((hets ++ extra).length : ℚ) * md.pricingRules.hetGeneBonus := by
    have := mul_le_mul_of_nonneg_right hlen hhet
    linarith
  have h4 : p * (1 + (hets.length : ℚ) * md.pricingRules.hetGeneBonus) ≤
      p2 * (1 + ((hets ++ extra).length : ℚ) * md.pricingRules.hetGeneBonus) :=
    mul_le_mul hpp hf2 hf1 (le_trans hp hpp)
  have hsm : 0 ≤ jsOr (jget md.pricingRules.speciesMultipliers s.species) 1 :=
    jsOr_nonneg (fun x hx => hsmul _ (jget_mem hx)) (by norm_num)
  rw [priceTail, priceTail]
  by_cases hcl : s.stats.clutchesProduced > 0
  · simp only [if_pos hcl]
    exact mul_le_mul_of_nonneg_right (mul_le_mul_of_nonneg_right h4 hbreed) hsm
  · simp only [if_neg hcl]
    exact mul_le_mul_of_nonneg_right h4 hsm

lemma priceFrom_le (md : MorphData) (s : SnakeC) (ph hets : List String) (t : String)
    (extra : List String)
    (hrar : ∀ q ∈ md.pricingRules.rarityMultipliers, 1 ≤ q.2)
    (hcomb : ∀ q ∈ md.comboMorphs, q.2.basePrice = none)
    (hbase : ∀ q ∈ md.species, 0 ≤ q.2.basePrice)
    (hgen : ∀ q ∈ md.pricingRules.genderMultiplier, 0 ≤ q.2)
    (hhet : 0 ≤ md.pricingRules.hetGeneBonus)
    (hbreed : 0 ≤ md.pricingRules.provenBreederBonus)
    (hsmul : ∀ q ∈ md.pricingRules.speciesMultipliers, 0 ≤ q.2) :
    priceFrom md s ph hets ≤ priceFrom md s (ph ++ [t]) (hets ++ extra) := by
  have hcmap : ∀ c ∈ md.comboMorphs.map (fun p => p.2), c.basePrice = none := by
    intro c hcmem
    obtain ⟨q, hq, hqe⟩ := List.mem_map.mp hcmem
    rw [← hqe]
    exact hcomb q hq
  have hbase0 : 0 ≤ basePriceOf md s.species := by
    rw [basePriceOf]
    refine jsOr_nonneg ?_ (by norm_num)
    intro x hx
    obtain ⟨sd, hsd, hxe⟩ := Option.map_eq_some'.mp hx
    rw [← hxe]
    exact hbase _ (jget_mem hsd)
  have hhead0 : 0 ≤ priceHead md s := by
    rw [priceHead]
    exact mul_nonneg hbase0 (jsOr_nonneg (fun x hx => hgen _ (jget_mem hx)) (by norm_num))
  have h2 : 0 ≤ ph.foldl (rarityStep md) (priceHead md s) :=
    foldl_rarity_nonneg md hrar ph _ hhead0
  have h2b : ph.foldl (rarityStep md) (priceHead md s) ≤
      (ph ++ [t]).foldl (rarityStep md) (priceHead md s) := by
    rw [List.foldl_append]
    simpa using rarityStep_ge md hrar _ h2 t
  rw [priceFrom, priceFrom, comboAdjust_id hcmap, comboAdjust_id hcmap]
  exact priceTail_le md s hets extra _ _ h2 h2b hhet hbreed hsmul

/-- C8: adding one additional expressed trait to an otherwise-identical
genotype never decreases `calculatePrice`, for catalogs like the shipped
one — every rarity-tier multiplier is at least 1, combo morphs carry no
`basePrice`, and all other pricing tables are non-negative. The added gene
is a fresh key and its expressed trait id does not collide with an existing
genotype key. -/
theorem price_monotone_add_trait
    (md : MorphData) (s : SnakeC) (gid : String) (v : JSVal) (t : String)
    (ph hets : List String)
    (hrar : ∀ q ∈ md.pricingRules.rarityMultipliers, 1 ≤ q.2)
    (hcomb : ∀ q ∈ md.comboMorphs, q.2.basePrice = none)
    (hbase : ∀ q ∈ md.species, 0 ≤ q.2.basePrice)
    (hgen : ∀ q ∈ md.pricingRules.genderMultiplier, 0 ≤ q.2)
    (hhet : 0 ≤ md.pricingRules.hetGeneBonus)
    (hbreed : 0 ≤ md.pricingRules.provenBreederBonus)
    (hsmul : ∀ q ∈ md.pricingRules.speciesMultipliers, 0 ≤ q.2)
    (hph : getPhenotype s.genotype md.genes = Except.ok ph)
    (hhets : getHetGenes s.genotype md.genes = Except.ok hets)
    (hnew : entryContrib md.genes (gid, v) = Except.ok (some t))
    (hfresh : ∀ e ∈ s.genotype, e.1 ≠ gid)
    (htkey : ∀ e ∈ s.genotype, e.1 ≠ t) :
    ∃ pOld pNew : Int,
      calculatePrice s md = Except.ok pOld ∧
      calculatePrice { s with genotype := s.genotype ++ [(gid, v)] } md = Except.ok pNew ∧
      pOld ≤ pNew := by
  have hmid : getPhenotype [(gid, v)] md.genes = Except.ok [t] := by
    show collectE (entryContrib md.genes) [(gid, v)] = _
    rw [collectE, hnew, ok_bind, collectE, ok_bind, pure_ok]
    simp
  have hph2 : getPhenotype (s.genotype ++ [(gid, v)]) md.genes = Except.ok (ph ++ [t]) :=
    collectE_append_ok hph hmid
  have hloop : hetLoop s.genotype md.genes ph = Except.ok hets := by
    have h0 := hhets
    rw [getHetGenes, hph, ok_bind] at h0
    exact h0
  have hloop2 : hetLoop s.genotype md.genes (ph ++ [t]) = Except.ok hets := by
    have hcong := collectE_congr (l := s.genotype)
      (f := hetEntry md.genes (ph ++ [t])) (g := hetEntry md.genes ph)
      (fun e he => hetEntry_snoc_ph md.genes ph t e (htkey e he))
    exact hcong.trans hloop
  have hnewhet : ∃ o, hetEntry md.genes (ph ++ [t]) (gid, v) = Except.ok o := by
    cases v with
    | arr xs => exact hetEntry_arr_ok md.genes (ph ++ [t]) (gid, JSVal.arr xs) (Or.inl rfl)
    | jnull =>
        exfalso
        cases hg : jget md.genes gid with
        | none => simp [entryContrib, hg] at hnew
        | some g =>
            obtain ⟨n, inh, sf, ra⟩ := g
            cases inh <;> simp [entryContrib, hg, resolveGene] at hnew
  obtain ⟨o, ho⟩ := hnewhet
  have hmidhet : hetLoop [(gid, v)] md.genes (ph ++ [t]) = Except.ok o.toList := by
    show collectE (hetEntry md.genes (ph ++ [t])) [(gid, v)] = _
    rw [collectE, ho, ok_bind, collectE, ok_bind, pure_ok]
    simp
  have hhets2 : getHetGenes (s.genotype ++ [(gid, v)]) md.genes =
      Except.ok (hets ++ o.toList) := by
    rw [getHetGenes, hph2, ok_bind]
    exact collectE_append_ok hloop2 hmidhet
  refine ⟨jsRound (priceFrom md s ph hets),
    jsRound (priceFrom md s (ph ++ [t]) (hets ++ o.toList)), ?_, ?_, ?_⟩
  · rw [calculatePrice, hph, ok_bind, hhets, ok_bind, pure_ok]
  · have hgeq : ({ s with genotype := s.genotype ++ [(gid, v)] } : SnakeC).genotype =
        s.genotype ++ [(gid, v)] := rfl
    rw [calculatePrice, hgeq, hph2, ok_bind, hhets2, ok_bind, pure_ok]
    rfl
  · exact jsRound_mono (priceFrom_le md s ph hets t o.toList hrar hcomb hbase hgen hhet
      hbreed hsmul)

theorem price_monotone_add_trait_witness :
    getPhenotype snakeW.genotype mdSpec.genes = Except.ok [] ∧
    getHetGenes snakeW.genotype mdSpec.genes = Except.ok [albinoGene.name] ∧
    entryContrib mdSpec.genes (axanthicId, JSVal.arr [axanthicId, axanthicId]) =
      Except.ok (some axanthicId) ∧
    ∃ pOld pNew : Int,
      calculatePrice snakeW mdSpec = Except.ok pOld ∧
      calculatePrice { snakeW with genotype := snakeW.genotype ++
        [(axanthicId, JSVal.arr [axanthicId, axanthicId])] } mdSpec = Except.ok pNew ∧
      pOld ≤ pNew := by
  refine ⟨by decide, by decide, by decide, ?_⟩
  refine price_monotone_add_trait mdSpec snakeW axanthicId (JSVal.arr [axanthicId, axanthicId])
    axanthicId [] [albinoGene.name] ?_ (by decide) ?_ ?_ ?_ ?_ ?_ (by decide) (by decide)
    (by decide) (by decide) (by decide)
  · intro q hq
    simp only [mdSpec, specRules] at hq
    fin_cases hq <;> norm_num
  · intro q hq
    simp only [mdSpec, specSpecies] at hq
    fin_cases hq <;> norm_num [westernDef, easternDef, southernDef]
  · intro q hq
    simp only [mdSpec, specRules] at hq
    fin_cases hq <;> norm_num
  · norm_num [mdSpec, specRules]
  · norm_num [mdSpec, specRules]
  · intro q hq
    simp only [mdSpec, specRules] at hq
    fin_cases hq <;> norm_num
